import Mathlib

set_option maxHeartbeats 4000000

/-!
Shallow embedding of the `go-types` repository (packages `date` and `timeofday`).

Machine integers: Go `int`/`int64` values are modelled as `Int`.  The calendar
conversion functions in the source cast to `uint64` for their intermediate
arithmetic, but their (documented) domain is caller-prevalidated dates, on
which every intermediate quantity is non-negative and far below `2^64`, so the
unsigned casts are the identity and plain `Int` arithmetic with Euclidean
division coincides with the source's truncated/unsigned division.  Where int64
overflow IS reachable (`timeofday.Value.Add`), the wrap-around is modelled
explicitly with `wrap64`, and Go's truncated `%` with `tmod`.

Byte slices and strings are modelled as `List Nat` of byte values.
-/

namespace gotypes

deriving instance DecidableEq for Except

/-- Two's-complement 64-bit wrap-around: the `int64` value whose bit pattern is
the low 64 bits of `x`.  This models overflow of Go `int64` arithmetic. -/
def wrap64 (x : Int) : Int :=
  (x + 9223372036854775808) % 18446744073709551616 - 9223372036854775808

/-- Go's truncated integer remainder `a % b` for a positive modulus `b`
(the result takes the sign of the dividend `a`). -/
def tmod (a b : Int) : Int := if 0 ≤ a then a % b else -(-a % b)

/-- Go's truncated integer division `a / b` for a positive divisor `b`
(rounds toward zero). -/
def tdiv (a b : Int) : Int := if 0 ≤ a then a / b else -(-a / b)

namespace date

/-- Error values of the `date` package (`ErrInvalidDateUnit` plus the ad-hoc
`errors.Errorf` failures of `Value.NextYear`). -/
inductive DateErr where
  | invalidDateUnit
  | invalidYearUnit
  | yearBeforeCurrent
deriving DecidableEq

/-- The `date.Nil` sentinel (`Value(-2)`). -/
def Nil : Int := -2

/-- The `date.NilUnit` sentinel for unit values of a nil date. -/
def NilUnit : Int := -2

/-- The minimum supported date value, `date.Min = Value(2361331)`
(1753-01-01 Gregorian). -/
def Min : Int := 2361331

/-- The maximum supported date value, `date.Max = Value(5373484)`
(9999-12-31 Gregorian). -/
def Max : Int := 5373484

/-- Source `isLeapYear` (date/value.go): divisible by 4 and not by 100, or
divisible by 400. -/
def isLeapYear (y : Int) : Bool := ((y % 4 == 0) && (y % 100 != 0)) || (y % 400 == 0)

/-- Source `baseDaysInMonth` array: days of each month in non-leap years,
index 0 unused. -/
def baseDaysInMonth : List Int := [0, 31, 28, 31, 30, 31, 30, 31, 31, 30, 31, 30, 31]

/-- Source `daysInMonth` (date/value.go): table lookup, with February bumped
in leap years.  The Go code indexes the array only after the caller has
checked `0 < m < 13`; the out-of-range lookup is totalised with default 0. -/
def daysInMonth (y m : Int) : Int :=
  let d := baseDaysInMonth.getD m.toNat 0
  if m == 2 && isLeapYear y then d + 1 else d

/-- Source `isValidUnits` (date/value.go). -/
def isValidUnits (y m d : Int) : Bool :=
  (y ≥ 1753) && (y ≤ 9999) && (m > 0) && (m < 13) && (d > 0) && (d ≤ daysInMonth y m)

/-- Source `gregorianToJulian` (date/value.go): month-shifted
century/year-remainder decomposition.  `>> 2` is written `/ 4`; the `uint64`
casts are the identity on the caller-prevalidated domain. -/
def gregorianToJulian (y m d : Int) : Int :=
  let m2 := if m > 2 then m - 3 else m + 9
  let y2 := if m > 2 then y else y - 1
  let c := y2 / 100
  let yr := y2 - 100 * c
  (146097 * c) / 4 + (1461 * yr) / 4 + (153 * m2 + 2) / 5 + d + 1721119

/-- Source `julianToGregorian` (date/value.go): the inverse decomposition.
`<< 2` is written `* 4` and `>> 2` is `/ 4`; the `uint64` casts are the
identity for day numbers in the supported range. -/
def julianToGregorian (v : Int) : Int × Int × Int :=
  let jt := v - 1721119
  let y := (jt * 4 - 1) / 146097
  let jt2 := jt * 4 - 1 - 146097 * y
  let ud := jt2 / 4
  let jt3 := (ud * 4 + 3) / 1461
  let ud2 := ud * 4 + 3 - 1461 * jt3
  let ud3 := (ud2 + 4) / 4
  let m := (5 * ud3 - 3) / 153
  let ud4 := 5 * ud3 - 3 - 153 * m
  let d := (ud4 + 5) / 5
  let y2 := 100 * y + jt3
  if m < 10 then (y2, m + 3, d) else (y2 + 1, m - 9, d)

/-- Source `FromUnits` (date/value.go): validate, then convert.  The Go pair
`(Value, error)` is modelled as `Except`. -/
def FromUnits (y m d : Int) : Except DateErr Int :=
  if isValidUnits y m d then .ok (gregorianToJulian y m d) else .error .invalidDateUnit

/-- Source `ToUnits` (date/value.go): nil-sentinel triple for `Nil`, otherwise
the Gregorian units of the day number. -/
def ToUnits (d : Int) : Int × Int × Int :=
  if d = Nil then (NilUnit, NilUnit, NilUnit) else julianToGregorian d

/-- Source `Value.IsValid`: `Min ≤ d ≤ Max`. -/
def IsValid (d : Int) : Bool := (Min ≤ d) && (d ≤ Max)

/-- Source `Equal` (date/value.go): `false` when either operand is `Nil`,
otherwise integer equality. -/
def Equal (v1 v2 : Int) : Bool :=
  if v1 == Nil || v2 == Nil then false else v1 == v2

/-- Source method `Value.Equals`: delegates to `Equal`. -/
def Equals (v v2 : Int) : Bool := Equal v v2

/-- Source method `Value.Before`: `false` when either operand is `Nil`,
otherwise integer `<`. -/
def Before (v v2 : Int) : Bool :=
  if v == Nil || v2 == Nil then false else decide (v < v2)

/-- Source method `Value.After`: `false` when either operand is `Nil`,
otherwise integer `>`. -/
def After (v v2 : Int) : Bool :=
  if v == Nil || v2 == Nil then false else decide (v > v2)

namespace v2

/-- Source `IsValidYear` (second `date` iteration, arithmetic file):
1753 to 9999 inclusive. -/
def IsValidYear (y : Int) : Bool := (y ≥ 1753) && (y ≤ 9999)

/-- Source `IsValidMonth` (second `date` iteration): 1 to 12 inclusive. -/
def IsValidMonth (m : Int) : Bool := (m > 0) && (m < 13)

/-- Source `IsLeapYear` (second `date` iteration): like `isLeapYear`, but
always false for an out-of-range year. -/
def IsLeapYear (y : Int) : Bool :=
  IsValidYear y && (((y % 4 == 0) && (y % 100 != 0)) || (y % 400 == 0))

/-- Source `DaysInMonth` (second `date` iteration): `NilUnit` for an invalid
year or month, otherwise the table lookup with the leap-year bump. -/
def DaysInMonth (y m : Int) : Int :=
  if !(IsValidYear y) || !(IsValidMonth m) then NilUnit
  else
    let d := baseDaysInMonth.getD m.toNat 0
    if m == 2 && IsLeapYear y then d + 1 else d

/-- Source exported `IsValidUnits` (second `date` iteration). -/
def IsValidUnits (y m d : Int) : Bool :=
  IsValidYear y && IsValidMonth m && (d > 0) && (d ≤ DaysInMonth y m)

/-- Source `FromUnits` of the second `date` iteration (validates with the
exported `IsValidUnits`). -/
def FromUnits (y m d : Int) : Except DateErr Int :=
  if IsValidUnits y m d then .ok (gregorianToJulian y m d) else .error .invalidDateUnit

/-- Source `ToUnits` of the second `date` iteration: the nil triple for `Nil`,
the `(-1, -1, -1)` triple for an out-of-range non-nil value, otherwise the
Gregorian units. -/
def ToUnits (d : Int) : Int × Int × Int :=
  if d = Nil then (NilUnit, NilUnit, NilUnit)
  else if !(IsValid d) then (-1, -1, -1)
  else julianToGregorian d

/-- Source `Value.NextYear` (second `date` iteration): `(Nil, nil)` for an
invalid receiver, an error for an invalid target year, an error when the
current year is greater than the target, otherwise `FromUnits` on the same
month and day in the target year. -/
def NextYear (d yy : Int) : Except DateErr Int :=
  if !(IsValid d) then .ok Nil
  else if !(IsValidYear yy) then .error .invalidYearUnit
  else
    let u := ToUnits d
    if u.1 > yy then .error .yearBeforeCurrent
    else FromUnits yy u.2.1 u.2.2

end v2

/-- Evaluation of `julianToGregorian` on a day number presented in
century/year-remainder form.  The abstract parameters `A`, `B`, `E` stand for
the three quotients of the forward conversion and `u`, `w`, `s` for the
corresponding remainders; `k1`–`k3` are the range conditions under which each
division stage of the inverse recovers its unit exactly. -/
theorem j2g_eval (v c r m' d A B E u w s : Int)
    (hA : 4 * A = 146097 * c - u) (hu : 0 ≤ u) (hu2 : u ≤ 3) (hcu : 4 ∣ c - u)
    (hB : 4 * B = 1461 * r - w) (hw : 0 ≤ w) (hw2 : w ≤ 3) (hrw : 4 ∣ r - w)
    (hE : 5 * E = 153 * m' + 2 - s) (hs : 0 ≤ s) (hs2 : s ≤ 4)
    (hB0 : 0 ≤ B) (hE0 : 0 ≤ E) (hE2 : E ≤ 337)
    (hv : v - 1721119 = A + B + E + d)
    (hd : 1 ≤ d) (hd2 : d ≤ 31)
    (k1 : 4 * B + 4 * E + 4 * d - 1 - u ≤ 146096)
    (k2 : 4 * E + 4 * d - 1 - w ≤ 1460)
    (k3 : 5 * d - 1 - s ≤ 152) :
    julianToGregorian v =
      if m' < 10 then (100 * c + r, m' + 3, d) else (100 * c + r + 1, m' - 9, d) := by
  simp only [julianToGregorian]
  have hy1 : ((v - 1721119) * 4 - 1) / 146097 = c := by rw [hv]; omega
  rw [hy1]
  have hud : ((v - 1721119) * 4 - 1 - 146097 * c) / 4 = B + E + d - 1 := by rw [hv]; omega
  rw [hud]
  have hjt3 : ((B + E + d - 1) * 4 + 3) / 1461 = r := by omega
  rw [hjt3]
  have hud3 : ((B + E + d - 1) * 4 + 3 - 1461 * r + 4) / 4 = E + d := by omega
  rw [hud3]
  have hm1 : (5 * (E + d) - 3) / 153 = m' := by omega
  rw [hm1]
  have hd1 : (5 * (E + d) - 3 - 153 * m' + 5) / 5 = d := by omega
  rw [hd1]

/-- Round-trip for months March through December (no month shift across the
year boundary). -/
theorem g2j_eval_high (y m d : Int) (hgt : 2 < m) (hm13 : m ≤ 12)
    (_hy : 1753 ≤ y) (_hy2 : y ≤ 9999) (hd : 1 ≤ d) (hd2 : d ≤ 31)
    (k2 : 4 * ((153 * (m - 3) + 2) / 5) + 4 * d - 1 - y % 100 % 4 ≤ 1460)
    (k3 : 5 * d - 1 - (153 * (m - 3) + 2) % 5 ≤ 152) :
    julianToGregorian (gregorianToJulian y m d) = (y, m, d) := by
  have key := j2g_eval (gregorianToJulian y m d) (y / 100) (y % 100) (m - 3) d
      ((146097 * (y / 100)) / 4) ((1461 * (y % 100)) / 4) ((153 * (m - 3) + 2) / 5)
      (y / 100 % 4) (y % 100 % 4) ((153 * (m - 3) + 2) % 5)
      (by omega) (by omega) (by omega) (by omega)
      (by omega) (by omega) (by omega) (by omega)
      (by omega) (by omega) (by omega)
      (by omega) (by omega) (by omega)
      (by simp only [gregorianToJulian, if_pos hgt]; omega)
      hd hd2
      (by omega) k2 k3
  rw [key, if_pos (show m - 3 < 10 by omega)]
  have h1 : 100 * (y / 100) + y % 100 = y := by omega
  have h2 : m - 3 + 3 = m := by omega
  rw [h1, h2]

/-- Round-trip for January and February (shifted to months 10 and 11 of the
previous computational year). -/
theorem g2j_eval_low (y m d : Int) (hle : m ≤ 2) (hm1 : 1 ≤ m)
    (_hy : 1753 ≤ y) (_hy2 : y ≤ 9999) (hd : 1 ≤ d) (hd2 : d ≤ 31)
    (k1 : 4 * ((1461 * ((y - 1) % 100)) / 4) + 4 * ((153 * (m + 9) + 2) / 5) + 4 * d - 1
        - (y - 1) / 100 % 4 ≤ 146096)
    (k2 : 4 * ((153 * (m + 9) + 2) / 5) + 4 * d - 1 - (y - 1) % 100 % 4 ≤ 1460)
    (k3 : 5 * d - 1 - (153 * (m + 9) + 2) % 5 ≤ 152) :
    julianToGregorian (gregorianToJulian y m d) = (y, m, d) := by
  have key := j2g_eval (gregorianToJulian y m d) ((y - 1) / 100) ((y - 1) % 100) (m + 9) d
      ((146097 * ((y - 1) / 100)) / 4) ((1461 * ((y - 1) % 100)) / 4) ((153 * (m + 9) + 2) / 5)
      ((y - 1) / 100 % 4) ((y - 1) % 100 % 4) ((153 * (m + 9) + 2) % 5)
      (by omega) (by omega) (by omega) (by omega)
      (by omega) (by omega) (by omega) (by omega)
      (by omega) (by omega) (by omega)
      (by omega) (by omega) (by omega)
      (by simp only [gregorianToJulian, if_neg (show ¬ 2 < m by omega)]; omega)
      hd hd2
      k1 k2 k3
  rw [key, if_neg (show ¬ m + 9 < 10 by omega)]
  have h1 : 100 * ((y - 1) / 100) + (y - 1) % 100 + 1 = y := by omega
  have h2 : m + 9 - 9 = m := by omega
  rw [h1, h2]

/-- Round-trip of the calendar conversion on every valid date. -/
theorem g2j_roundtrip (y m d : Int) (h : isValidUnits y m d = true) :
    julianToGregorian (gregorianToJulian y m d) = (y, m, d) := by
  simp only [isValidUnits, Bool.and_eq_true, decide_eq_true_eq] at h
  obtain ⟨⟨⟨⟨⟨h1, h2⟩, h3⟩, h4⟩, h5⟩, h6⟩ := h
  interval_cases m
  · have hdm : d ≤ 31 := by simpa [daysInMonth, baseDaysInMonth] using h6
    exact g2j_eval_low y 1 d (by omega) (by omega) h1 h2 h5 (by omega)
      (by omega) (by omega) (by omega)
  · have hdm : d ≤ if isLeapYear y = true then 29 else 28 := by
      simpa [daysInMonth, baseDaysInMonth] using h6
    by_cases hly : isLeapYear y = true
    · rw [if_pos hly] at hdm
      simp only [isLeapYear, Bool.or_eq_true, Bool.and_eq_true, beq_iff_eq, bne_iff_ne] at hly
      rcases hly with ⟨hly4, hly100⟩ | hly400
      · exact g2j_eval_low y 2 d (by omega) (by omega) h1 h2 h5 (by omega)
          (by omega) (by omega) (by omega)
      · exact g2j_eval_low y 2 d (by omega) (by omega) h1 h2 h5 (by omega)
          (by omega) (by omega) (by omega)
    · rw [if_neg hly] at hdm
      have hB4 : 4 * ((1461 * ((y - 1) % 100)) / 4)
          = 1461 * ((y - 1) % 100) - (y - 1) % 100 % 4 := by omega
      exact g2j_eval_low y 2 d (by omega) (by omega) h1 h2 h5 (by omega)
        (by omega) (by omega) (by omega)
  · have hdm : d ≤ 31 := by simpa [daysInMonth, baseDaysInMonth] using h6
    exact g2j_eval_high y 3 d (by omega) (by omega) h1 h2 h5 (by omega) (by omega) (by omega)
  · have hdm : d ≤ 30 := by simpa [daysInMonth, baseDaysInMonth] using h6
    exact g2j_eval_high y 4 d (by omega) (by omega) h1 h2 h5 (by omega) (by omega) (by omega)
  · have hdm : d ≤ 31 := by simpa [daysInMonth, baseDaysInMonth] using h6
    exact g2j_eval_high y 5 d (by omega) (by omega) h1 h2 h5 (by omega) (by omega) (by omega)
  · have hdm : d ≤ 30 := by simpa [daysInMonth, baseDaysInMonth] using h6
    exact g2j_eval_high y 6 d (by omega) (by omega) h1 h2 h5 (by omega) (by omega) (by omega)
  · have hdm : d ≤ 31 := by simpa [daysInMonth, baseDaysInMonth] using h6
    exact g2j_eval_high y 7 d (by omega) (by omega) h1 h2 h5 (by omega) (by omega) (by omega)
  · have hdm : d ≤ 31 := by simpa [daysInMonth, baseDaysInMonth] using h6
    exact g2j_eval_high y 8 d (by omega) (by omega) h1 h2 h5 (by omega) (by omega) (by omega)
  · have hdm : d ≤ 30 := by simpa [daysInMonth, baseDaysInMonth] using h6
    exact g2j_eval_high y 9 d (by omega) (by omega) h1 h2 h5 (by omega) (by omega) (by omega)
  · have hdm : d ≤ 31 := by simpa [daysInMonth, baseDaysInMonth] using h6
    exact g2j_eval_high y 10 d (by omega) (by omega) h1 h2 h5 (by omega) (by omega) (by omega)
  · have hdm : d ≤ 30 := by simpa [daysInMonth, baseDaysInMonth] using h6
    exact g2j_eval_high y 11 d (by omega) (by omega) h1 h2 h5 (by omega) (by omega) (by omega)
  · have hdm : d ≤ 31 := by simpa [daysInMonth, baseDaysInMonth] using h6
    exact g2j_eval_high y 12 d (by omega) (by omega) h1 h2 h5 (by omega) (by omega) (by omega)

/-- Upper bound for the month-length table. -/
theorem daysInMonth_le31 (y m : Int) (h3 : 1 ≤ m) (h4 : m ≤ 12) : daysInMonth y m ≤ 31 := by
  interval_cases m <;>
    simp [daysInMonth, baseDaysInMonth] <;>
    (split <;> norm_num)

/-- The day number of every valid date lies between `Min` and `Max`. -/
theorem g2j_bounds (y m d : Int) (h : isValidUnits y m d = true) :
    Min ≤ gregorianToJulian y m d ∧ gregorianToJulian y m d ≤ Max := by
  simp only [isValidUnits, Bool.and_eq_true, decide_eq_true_eq] at h
  obtain ⟨⟨⟨⟨⟨h1, h2⟩, h3⟩, h4⟩, h5⟩, h6⟩ := h
  have hdm : d ≤ 31 := le_trans h6 (daysInMonth_le31 y m (by omega) (by omega))
  simp only [Min, Max, gregorianToJulian]
  by_cases hgt : 2 < m
  · rw [if_pos hgt, if_pos hgt]
    have hA4 : 4 * ((146097 * (y / 100)) / 4) = 146097 * (y / 100) - y / 100 % 4 := by omega
    have hB4 : 4 * ((1461 * (y - 100 * (y / 100))) / 4)
        = 1461 * (y - 100 * (y / 100)) - (y - 100 * (y / 100)) % 4 := by omega
    have hE5 : 5 * ((153 * (m - 3) + 2) / 5)
        = 153 * (m - 3) + 2 - (153 * (m - 3) + 2) % 5 := by omega
    omega
  · rw [if_neg hgt, if_neg hgt]
    have hA4 : 4 * ((146097 * ((y - 1) / 100)) / 4)
        = 146097 * ((y - 1) / 100) - (y - 1) / 100 % 4 := by omega
    have hB4 : 4 * ((1461 * (y - 1 - 100 * ((y - 1) / 100))) / 4)
        = 1461 * (y - 1 - 100 * ((y - 1) / 100)) - (y - 1 - 100 * ((y - 1) / 100)) % 4 := by
      omega
    have hE5 : 5 * ((153 * (m + 9) + 2) / 5)
        = 153 * (m + 9) + 2 - (153 * (m + 9) + 2) % 5 := by omega
    omega

/-- Unfolding of the validity predicate into arithmetic conditions. -/
theorem isValidUnits_iff (y m d : Int) :
    isValidUnits y m d = true ↔
      (1753 ≤ y ∧ y ≤ 9999 ∧ 1 ≤ m ∧ m ≤ 12 ∧ 1 ≤ d ∧ d ≤ daysInMonth y m) := by
  simp only [isValidUnits, Bool.and_eq_true, decide_eq_true_eq]
  omega

/-- For a valid year and month the two iterations compute the same month
length. -/
theorem v2_DaysInMonth_eq (y m : Int) (hy : v2.IsValidYear y = true)
    (hm : v2.IsValidMonth m = true) : v2.DaysInMonth y m = daysInMonth y m := by
  simp only [v2.DaysInMonth, hy, hm, Bool.not_true, Bool.or_self, Bool.false_or,
    Bool.false_eq_true, if_false, daysInMonth, v2.IsLeapYear, isLeapYear, Bool.true_and]

/-- Validity in the second iteration implies validity in the first. -/
theorem v2_isValidUnits_imp (y m d : Int) (h : v2.IsValidUnits y m d = true) :
    isValidUnits y m d = true := by
  simp only [v2.IsValidUnits, Bool.and_eq_true] at h
  obtain ⟨⟨⟨hy, hm⟩, hd⟩, hdm⟩ := h
  rw [v2_DaysInMonth_eq y m hy hm] at hdm
  simp only [v2.IsValidYear, Bool.and_eq_true, decide_eq_true_eq] at hy
  simp only [v2.IsValidMonth, Bool.and_eq_true, decide_eq_true_eq] at hm
  simp only [decide_eq_true_eq] at hd hdm
  rw [isValidUnits_iff]
  omega

/-- C1: for every valid Gregorian date (y, m, d) with y in [1753, 9999],
m in [1, 12] and d in [1, daysInMonth(y, m)], converting the units to a day
number and back is the identity:
`julianToGregorian (gregorianToJulian y m d) = (y, m, d)`. -/
theorem claim1_roundtrip (y m d : Int) (h : isValidUnits y m d = true) :
    julianToGregorian (gregorianToJulian y m d) = (y, m, d) :=
  g2j_roundtrip y m d h

/-- Witness for C1 at the leap date 1996-02-29. -/
theorem claim1_roundtrip_witness :
    isValidUnits 1996 2 29 = true ∧
    julianToGregorian (gregorianToJulian 1996 2 29) = (1996, 2, 29) :=
  ⟨by decide, claim1_roundtrip 1996 2 29 (by decide)⟩

/-- C2: `date.FromUnits y m d` succeeds if and only if y is in [1753, 9999],
m in [1, 12] and d in [1, daysInMonth y m], where February has 29 days exactly
in leap years (divisible by 4 and not by 100, or divisible by 400), and fails
with `ErrInvalidDateUnit` otherwise; `FromUnits 1753 1 1` equals
`Min = 2361331`, `FromUnits 9999 12 31` equals `Max = 5373484`, and
`FromUnits 1752 12 31` and `FromUnits 10000 1 1` fail. -/
theorem claim2_fromUnits_validity :
    (∀ y m d : Int, (∃ v, FromUnits y m d = .ok v) ↔
        (1753 ≤ y ∧ y ≤ 9999 ∧ 1 ≤ m ∧ m ≤ 12 ∧ 1 ≤ d ∧ d ≤ daysInMonth y m)) ∧
    (∀ y m d : Int, FromUnits y m d = .error .invalidDateUnit ↔
        ¬ (1753 ≤ y ∧ y ≤ 9999 ∧ 1 ≤ m ∧ m ≤ 12 ∧ 1 ≤ d ∧ d ≤ daysInMonth y m)) ∧
    (∀ y : Int, daysInMonth y 2 =
        if (y % 4 = 0 ∧ y % 100 ≠ 0) ∨ y % 400 = 0 then 29 else 28) ∧
    FromUnits 1753 1 1 = .ok Min ∧ Min = 2361331 ∧
    FromUnits 9999 12 31 = .ok Max ∧ Max = 5373484 ∧
    FromUnits 1752 12 31 = .error .invalidDateUnit ∧
    FromUnits 10000 1 1 = .error .invalidDateUnit := by
  refine ⟨?_, ?_, ?_, by decide, by decide, by decide, by decide, by decide, by decide⟩
  · intro y m d
    by_cases h : isValidUnits y m d = true
    · rw [FromUnits, if_pos h]
      exact ⟨fun _ => (isValidUnits_iff y m d).mp h, fun _ => ⟨_, rfl⟩⟩
    · rw [FromUnits, if_neg h]
      constructor
      · rintro ⟨v, hv⟩
        exact absurd hv (by simp)
      · intro hc
        exact absurd ((isValidUnits_iff y m d).mpr hc) h
  · intro y m d
    by_cases h : isValidUnits y m d = true
    · rw [FromUnits, if_pos h]
      constructor
      · intro hv
        exact absurd hv (by simp)
      · intro hc
        exact absurd ((isValidUnits_iff y m d).mp h) hc
    · rw [FromUnits, if_neg h]
      constructor
      · intro _ hc
        exact absurd ((isValidUnits_iff y m d).mpr hc) h
      · intro _
        rfl
  · intro y
    have hleap : isLeapYear y = true ↔ ((y % 4 = 0 ∧ y % 100 ≠ 0) ∨ y % 400 = 0) := by
      simp [isLeapYear]
    by_cases hp : (y % 4 = 0 ∧ y % 100 ≠ 0) ∨ y % 400 = 0
    · rw [if_pos hp]
      simp [daysInMonth, baseDaysInMonth, hleap.mpr hp]
    · rw [if_neg hp]
      have : isLeapYear y = false := by
        rw [Bool.eq_false_iff]
        intro h
        exact hp (hleap.mp h)
      simp [daysInMonth, baseDaysInMonth, this]

/-- Witness for C2 at 1996-02-29 (valid leap date) and 1997-02-29 (rejected). -/
theorem claim2_witness :
    (∃ v, FromUnits 1996 2 29 = .ok v) ∧
    FromUnits 1997 2 29 = .error .invalidDateUnit :=
  ⟨(claim2_fromUnits_validity.1 1996 2 29).mpr (by decide),
   (claim2_fromUnits_validity.2.1 1997 2 29).mpr (by decide)⟩

/-- C6 counterexample: the claim asserts that the day number of
1753-01-01 — equivalently `Min` — is 0; in fact both equal 2361331. -/
theorem claim6_counterexample :
    gregorianToJulian 1753 1 1 = 2361331 ∧ Min = 2361331 ∧ (2361331 : Int) ≠ 0 := by
  decide

/-- C6 (amended): the Date integer is a day number anchored by the fixed
constant 1721119; the day number of 1753-01-01 Gregorian equals the minimum
valid value `Min = 2361331` (day 0 of the internal numbering is not
1753-01-01). -/
theorem claim6_epoch_amended :
    gregorianToJulian 1753 1 1 = Min ∧ Min = 2361331 ∧
    julianToGregorian Min = (1753, 1, 1) := by
  decide

/-- C7: comparisons involving the `Nil` sentinel are all false, including
`Nil` against `Nil`; on non-nil operands `Equal`, `Before` and `After` are
integer equality, `<`, and `>`. -/
theorem claim7_nil_incomparable :
    (∀ v1 v2 : Int, v1 = Nil ∨ v2 = Nil →
        Equal v1 v2 = false ∧ Before v1 v2 = false ∧ After v1 v2 = false) ∧
    (∀ v1 v2 : Int, v1 ≠ Nil → v2 ≠ Nil →
        (Equal v1 v2 = true ↔ v1 = v2) ∧ (Before v1 v2 = true ↔ v1 < v2) ∧
        (After v1 v2 = true ↔ v2 < v1)) := by
  constructor
  · intro v1 v2 h
    rcases h with h | h <;> subst h <;> simp [Equal, Before, After]
  · intro v1 v2 h1 h2
    simp [Equal, Before, After, h1, h2]

/-- Witness for C7: nil-nil and nil-valid comparisons return false, and a
non-nil self-comparison is equal. -/
theorem claim7_witness :
    Equal Nil Nil = false ∧ Before Nil 2361331 = false ∧ After 2361331 Nil = false ∧
    Equal 2361331 2361331 = true :=
  ⟨(claim7_nil_incomparable.1 Nil Nil (Or.inl rfl)).1,
   (claim7_nil_incomparable.1 Nil 2361331 (Or.inl rfl)).2.1,
   (claim7_nil_incomparable.1 2361331 Nil (Or.inr rfl)).2.2,
   ((claim7_nil_incomparable.2 2361331 2361331 (by decide) (by decide)).1).mpr rfl⟩

/-- C8 counterexample: the claim requires `NextYear` to fail whenever the
target year is not strictly after the current year, but on the valid date
1753-01-01 with target year 1753 (the same year) it succeeds, returning the
date unchanged. -/
theorem claim8_counterexample :
    IsValid 2361331 = true ∧ v2.ToUnits 2361331 = (1753, 1, 1) ∧
    v2.NextYear 2361331 1753 = .ok 2361331 := by
  decide

/-- C8 (amended): for a valid date d, `NextYear d yy` fails with the
year-unit error when yy is outside [1753, 9999], fails with the
year-before-current error only when yy is strictly before d's year (a target
equal to the current year succeeds), and otherwise delegates to `FromUnits`
on (yy, month of d, day of d); whenever it succeeds the result carries the
same month and day in the target year. -/
theorem claim8_nextYear_amended (d yy : Int) (hv : IsValid d = true) :
    (¬ (1753 ≤ yy ∧ yy ≤ 9999) → v2.NextYear d yy = .error .invalidYearUnit) ∧
    ((1753 ≤ yy ∧ yy ≤ 9999) → yy < (v2.ToUnits d).1 →
        v2.NextYear d yy = .error .yearBeforeCurrent) ∧
    ((1753 ≤ yy ∧ yy ≤ 9999) → (v2.ToUnits d).1 ≤ yy →
        v2.NextYear d yy = v2.FromUnits yy (v2.ToUnits d).2.1 (v2.ToUnits d).2.2) ∧
    (∀ v : Int, v2.NextYear d yy = .ok v →
        v2.ToUnits v = (yy, (v2.ToUnits d).2.1, (v2.ToUnits d).2.2)) := by
  have hstep : v2.NextYear d yy =
      (if !(v2.IsValidYear yy) then .error .invalidYearUnit
       else if (v2.ToUnits d).1 > yy then .error .yearBeforeCurrent
       else v2.FromUnits yy (v2.ToUnits d).2.1 (v2.ToUnits d).2.2) := by
    simp only [v2.NextYear, hv, Bool.not_true, Bool.false_eq_true, if_false]
  have hyear : ∀ h : 1753 ≤ yy ∧ yy ≤ 9999, v2.IsValidYear yy = true := by
    intro h
    simp only [v2.IsValidYear, Bool.and_eq_true, decide_eq_true_eq]
    omega
  refine ⟨?_, ?_, ?_, ?_⟩
  · intro h
    have hfalse : v2.IsValidYear yy = false := by
      rw [Bool.eq_false_iff]
      intro h'
      simp only [v2.IsValidYear, Bool.and_eq_true, decide_eq_true_eq] at h'
      omega
    rw [hstep, hfalse]
    rfl
  · intro h hlt
    rw [hstep, hyear h]
    simp only [Bool.not_true, Bool.false_eq_true, if_false]
    rw [if_pos (by omega)]
  · intro h hle
    rw [hstep, hyear h]
    simp only [Bool.not_true, Bool.false_eq_true, if_false]
    rw [if_neg (by omega)]
  · intro v hok
    rw [hstep] at hok
    by_cases hyy : v2.IsValidYear yy = true
    · rw [hyy] at hok
      simp only [Bool.not_true, Bool.false_eq_true, if_false] at hok
      by_cases hlt : (v2.ToUnits d).1 > yy
      · rw [if_pos hlt] at hok
        exact absurd hok (by simp)
      · rw [if_neg hlt] at hok
        rw [v2.FromUnits] at hok
        by_cases hval : v2.IsValidUnits yy (v2.ToUnits d).2.1 (v2.ToUnits d).2.2 = true
        · rw [if_pos hval] at hok
          have hv1 : isValidUnits yy (v2.ToUnits d).2.1 (v2.ToUnits d).2.2 = true :=
            v2_isValidUnits_imp _ _ _ hval
          have hveq : v = gregorianToJulian yy (v2.ToUnits d).2.1 (v2.ToUnits d).2.2 := by
            cases hok
            rfl
          have hbnd := g2j_bounds _ _ _ hv1
          have hvalid : IsValid (gregorianToJulian yy (v2.ToUnits d).2.1
              (v2.ToUnits d).2.2) = true := by
            simp only [IsValid, Bool.and_eq_true, decide_eq_true_eq]
            exact hbnd
          rw [hveq, v2.ToUnits,
            if_neg (show ¬ gregorianToJulian yy (v2.ToUnits d).2.1 (v2.ToUnits d).2.2 = Nil by
              simp only [Min, Max] at hbnd
              simp only [Nil]
              omega),
            if_neg (show ¬ ((!IsValid (gregorianToJulian yy (v2.ToUnits d).2.1
                (v2.ToUnits d).2.2)) = true) by
              rw [hvalid]
              decide)]
          exact g2j_roundtrip yy (v2.ToUnits d).2.1 (v2.ToUnits d).2.2 hv1
        · rw [if_neg hval] at hok
          exact absurd hok (by simp)
    · have hfalse : v2.IsValidYear yy = false := by
        rw [Bool.eq_false_iff]
        exact hyy
      rw [hfalse] at hok
      exact absurd hok (by simp)

/-- Witness for C8: on the valid date 1753-01-01 with target year 1754 the
amended success clause applies. -/
theorem claim8_witness :
    v2.NextYear 2361331 1754 = v2.FromUnits 1754 1 1 :=
  (claim8_nextYear_amended 2361331 1754 (by decide)).2.2.1 (by decide) (by decide)

end date

namespace timeofday

/-- Error values of the `timeofday` package. -/
inductive TodErr where
  | invalidUnit
  | invalidDuration
  | invalidBinaryDataLen
  | invalidTextDataLen
  | invalidTextData
  | invalidTimeFormat
deriving DecidableEq

/-- Source constant `nsecsPerSecond`. -/
def nsecsPerSecond : Int := 1000 * 1000 * 1000

/-- Source constant `nsecsPerMinute`. -/
def nsecsPerMinute : Int := 60 * nsecsPerSecond

/-- Source constant `nsecsPerHour`. -/
def nsecsPerHour : Int := 60 * nsecsPerMinute

/-- The `timeofday.Zero` value (midnight, internal duration 0). -/
def Zero : Int := 0

/-- The `timeofday.Min` value (midnight). -/
def Min : Int := 0

/-- The `timeofday.Max` value (`24h - 1ns` = 86399999999999 ns,
23:59:59.999999999). -/
def Max : Int := 86399999999999

/-- Source `IsValidDuration`: `0 ≤ d < 24h` (24h = 86400000000000 ns). -/
def IsValidDuration (d : Int) : Bool := (d ≥ 0) && (d < 86400000000000)

/-- Source `IsValidUnits`: hour in [0, 24), minute and second in [0, 60),
nanosecond in [0, 1e9). -/
def IsValidUnits (h m s ns : Int) : Bool :=
  (0 ≤ h) && (h < 24) && (0 ≤ m) && (m < 60) && (0 ≤ s) && (s < 60) &&
    (0 ≤ ns) && (ns < 1000000000)

/-- Source `Value.ToUnits`: successive truncated division of the nanosecond
count into hour, minute, second and nanosecond components. -/
def ToUnits (t : Int) : Int × Int × Int × Int :=
  let ns := t
  let uh := tdiv ns nsecsPerHour
  let ns2 := ns - uh * nsecsPerHour
  let um := tdiv ns2 nsecsPerMinute
  let ns3 := ns2 - um * nsecsPerMinute
  let us := tdiv ns3 nsecsPerSecond
  let ns4 := ns3 - us * nsecsPerSecond
  (uh, um, us, ns4)

/-- Source `FromUnits` (timeofday/value.go): validate the units, then sum
them into a nanosecond count. -/
def FromUnits (h m s ns : Int) : Except TodErr Int :=
  if IsValidUnits h m s ns then
    .ok (h * nsecsPerHour + m * nsecsPerMinute + s * nsecsPerSecond + ns)
  else .error .invalidUnit

/-- Source `Value.Add` (timeofday/value.go): int64 addition (wrapping on
overflow), then normalization into [0, 24h) — a negative result is replaced by
`24h - ((-result) % 24h)` and a result `≥ 24h` by `result % 24h`, both with
Go's truncated `%` and wrapping `-1 * result`. -/
def Add (t d : Int) : Int :=
  let res := wrap64 (t + d)
  let res2 := if res < 0 then 86400000000000 - tmod (wrap64 (-1 * res)) 86400000000000 else res
  if res2 ≥ 86400000000000 then tmod res2 86400000000000 else res2

/-- Source `Value.Sub`: `t.Add(-1 * d)` with wrapping int64 negation. -/
def Sub (t d : Int) : Int := Add t (wrap64 (-1 * d))

/-- C10: for every internal duration t (valid or not) and every duration d,
including values where t + d overflows the signed 64-bit range, the results of
`Add` and `Sub` lie in [0, 24h): `IsValidDuration` is an invariant established
by `Add` and `Sub` on all inputs. -/
theorem claim10_add_sub_invariant (t d : Int) :
    IsValidDuration (Add t d) = true ∧ IsValidDuration (Sub t d) = true := by
  have key : ∀ a b : Int, IsValidDuration (Add a b) = true := by
    intro a b
    simp only [IsValidDuration, Bool.and_eq_true, decide_eq_true_eq]
    simp only [Add, wrap64, tmod]
    split_ifs <;> omega
  exact ⟨key t d, key t (wrap64 (-1 * d))⟩

/-- C3 counterexample: the claim asserts that for every valid t and every
duration d, `Add t d` is the representative of (t + d) mod 24h in [0, 24h);
at t = 00:00:00 and d = -2^63 (the minimum int64), int64 overflow in the
negation makes the result 85636854775808 ns, while the representative of
(t + d) mod 24h is 763145224192 ns. -/
theorem claim3_counterexample :
    IsValidDuration 0 = true ∧
    Add 0 (-9223372036854775808) = 85636854775808 ∧
    (0 + -9223372036854775808 : Int) % 86400000000000 = 763145224192 ∧
    (85636854775808 : Int) ≠ 763145224192 := by
  decide

/-- C3 (amended): for every valid t and every d such that the mathematical
sum t + d lies strictly within the int64 range (so the addition does not
overflow and the sum is not exactly -2^63), `Add t d` equals the unique
representative of (t + d) mod 24h in [0, 24h); `Sub t d` equals `Add t (-d)`
for every d whose negation is representable; adding 25 hours to 00:00:00
yields 01:00:00 and subtracting 1 hour from 00:00:00 yields 23:00:00. -/
theorem claim3_add_modular_amended :
    (∀ t d : Int, IsValidDuration t = true → -9223372036854775808 < t + d →
        t + d < 9223372036854775808 → Add t d = (t + d) % 86400000000000) ∧
    (∀ t d : Int, -9223372036854775808 < d → d < 9223372036854775808 →
        Sub t d = Add t (-d)) ∧
    Add 0 90000000000000 = 3600000000000 ∧
    Sub 0 3600000000000 = 82800000000000 := by
  refine ⟨?_, ?_, by decide, by decide⟩
  · intro t d hv h1 h2
    simp only [IsValidDuration, Bool.and_eq_true, decide_eq_true_eq] at hv
    simp only [Add]
    have hres : wrap64 (t + d) = t + d := by
      simp only [wrap64]
      omega
    rw [hres]
    have hneg : wrap64 (-1 * (t + d)) = -(t + d) := by
      simp only [wrap64]
      omega
    rw [hneg]
    simp only [tmod]
    split_ifs <;> omega
  · intro t d h1 h2
    have hwd : wrap64 (-1 * d) = -d := by
      simp only [wrap64]
      omega
    rw [Sub, hwd]

/-- Witness for C3 (amended): both universally quantified clauses applied at
the concrete wrap-around examples. -/
theorem claim3_witness :
    Add 0 90000000000000 = (0 + 90000000000000 : Int) % 86400000000000 ∧
    Sub 0 3600000000000 = Add 0 (-3600000000000) :=
  ⟨claim3_add_modular_amended.1 0 90000000000000 (by decide) (by decide) (by decide),
   claim3_add_modular_amended.2.1 0 3600000000000 (by decide) (by decide)⟩

/-- Big-endian byte list (8 bytes) of the two's-complement representation of
an int64, as produced by `binary.Write` with `binary.BigEndian`. -/
def int64ToBEBytes (x : Int) : List Nat :=
  let u := (x % 18446744073709551616).toNat
  [u / 72057594037927936 % 256, u / 281474976710656 % 256, u / 1099511627776 % 256,
   u / 4294967296 % 256, u / 16777216 % 256, u / 65536 % 256, u / 256 % 256, u % 256]

/-- The int64 read from 8 big-endian bytes by `binary.Read` with
`binary.BigEndian` (two's-complement interpretation). -/
def beBytesToInt64 (bs : List Nat) : Int :=
  let u := bs.foldl (fun a b => 256 * a + b) (0 : Nat)
  if u < 9223372036854775808 then (u : Int) else (u : Int) - 18446744073709551616

/-- Source `Value.MarshalBinary`: the 8-byte big-endian encoding of the
nanosecond count. -/
def MarshalBinary (t : Int) : List Nat := int64ToBEBytes t

/-- Source `Value.UnmarshalBinary`: length check, big-endian decode, range
check, then store the decoded count. -/
def UnmarshalBinary (data : List Nat) : Except TodErr Int :=
  if data.length ≠ 8 then .error .invalidBinaryDataLen
  else
    let d := beBytesToInt64 data
    if !(IsValidDuration d) then .error .invalidDuration
    else .ok d

/-- Evaluation of the binary decoder on an 8-byte input. -/
theorem UnmarshalBinary_eq8 (data : List Nat) (hlen : data.length = 8) :
    UnmarshalBinary data =
      (if IsValidDuration (beBytesToInt64 data) = true
        then .ok (beBytesToInt64 data) else .error .invalidDuration) := by
  rw [UnmarshalBinary, if_neg (by omega)]
  by_cases h : IsValidDuration (beBytesToInt64 data) = true
  · simp [h]
  · have h2 : IsValidDuration (beBytesToInt64 data) = false := by
      rw [Bool.eq_false_iff]
      exact h
    simp [h2]

/-- C4: binary decoding succeeds iff the input is exactly 8 bytes whose
big-endian signed 64-bit value lies in [0, 24h), storing that count on
success; a 7-byte input fails with the length error; the encodings of -1 and
of 86400000000000 fail with the duration error; encoding `Max` yields the
8-byte big-endian encoding of 86399999999999. -/
theorem claim4_binary_codec :
    (∀ data : List Nat, (∃ v, UnmarshalBinary data = .ok v) ↔
        (data.length = 8 ∧ 0 ≤ beBytesToInt64 data ∧ beBytesToInt64 data < 86400000000000)) ∧
    (∀ data v, UnmarshalBinary data = .ok v → v = beBytesToInt64 data) ∧
    (∀ data : List Nat, data.length ≠ 8 → UnmarshalBinary data = .error .invalidBinaryDataLen) ∧
    UnmarshalBinary [0, 0, 0, 0, 0, 0, 0] = .error .invalidBinaryDataLen ∧
    UnmarshalBinary [255, 255, 255, 255, 255, 255, 255, 255] = .error .invalidDuration ∧
    beBytesToInt64 [255, 255, 255, 255, 255, 255, 255, 255] = -1 ∧
    UnmarshalBinary [0, 0, 78, 148, 145, 79, 0, 0] = .error .invalidDuration ∧
    beBytesToInt64 [0, 0, 78, 148, 145, 79, 0, 0] = 86400000000000 ∧
    MarshalBinary Max = [0, 0, 78, 148, 145, 78, 255, 255] ∧
    beBytesToInt64 (MarshalBinary Max) = 86399999999999 := by
  refine ⟨?_, ?_, ?_, by decide, by decide, by decide, by decide, by decide, by decide, by decide⟩
  · intro data
    by_cases hlen : data.length = 8
    · rw [UnmarshalBinary_eq8 data hlen]
      by_cases hrange : IsValidDuration (beBytesToInt64 data) = true
      · rw [if_pos hrange]
        simp only [IsValidDuration, Bool.and_eq_true, decide_eq_true_eq] at hrange
        exact ⟨fun _ => ⟨hlen, by omega⟩, fun _ => ⟨_, rfl⟩⟩
      · rw [if_neg hrange]
        constructor
        · rintro ⟨v, hv⟩
          exact absurd hv (by simp)
        · rintro ⟨-, hge, hlt⟩
          refine absurd ?_ hrange
          simp only [IsValidDuration, Bool.and_eq_true, decide_eq_true_eq]
          omega
    · rw [UnmarshalBinary, if_pos hlen]
      constructor
      · rintro ⟨v, hv⟩
        exact absurd hv (by simp)
      · rintro ⟨h8, -⟩
        exact absurd h8 hlen
  · intro data v hok
    by_cases hlen : data.length = 8
    · rw [UnmarshalBinary_eq8 data hlen] at hok
      by_cases hrange : IsValidDuration (beBytesToInt64 data) = true
      · rw [if_pos hrange] at hok
        cases hok
        rfl
      · rw [if_neg hrange] at hok
        exact absurd hok (by simp)
    · rw [UnmarshalBinary, if_pos hlen] at hok
      exact absurd hok (by simp)
  · intro data hlen
    rw [UnmarshalBinary, if_pos hlen]

/-- Witness for C4: the general length-mismatch clause applied to a 3-byte
input. -/
theorem claim4_witness : UnmarshalBinary [1, 2, 3] = .error .invalidBinaryDataLen :=
  claim4_binary_codec.2.2.1 [1, 2, 3] (by decide)


/-- Digit helper for the rendered text: `%02d` formatting of a unit value in
[0, 99] as two ASCII bytes. -/
def twoDigits (n : Int) : List Nat := [(48 + n / 10).toNat, (48 + n % 10).toNat]

/-- Source `fmtFrac` loop body: nine iterations over the decimal digits of the
fraction, least significant first, skipping digits until the first non-zero
one (this trims trailing zeros), prepending each printed digit. -/
def fmtFracLoop : Nat → Nat → Bool → List Nat → Bool × List Nat
  | 0, _, pr, acc => (pr, acc)
  | i + 1, v, pr, acc =>
    let digit := v % 10
    let pr2 := pr || (digit != 0)
    let acc2 := if pr2 then (48 + digit) :: acc else acc
    fmtFracLoop i (v / 10) pr2 acc2

/-- Source `fmtFrac`: the fractional suffix `.fff...` of v/10^9 with trailing
zeros omitted, and the dot omitted too when the fraction is 0. -/
def fmtFrac (v : Nat) : List Nat :=
  let r := fmtFracLoop 9 v false []
  if r.1 then 46 :: r.2 else r.2

/-- Source `Value.String`: `hh:mm:ss` (`%02d:%02d:%02d`), with the fractional
part appended only when the nanosecond component is positive (58 is the colon
byte).  The `uint64` cast of the nanosecond component is written `.toNat`. -/
def String (t : Int) : List Nat :=
  let u := ToUnits t
  twoDigits u.1 ++ [58] ++ twoDigits u.2.1 ++ [58] ++ twoDigits u.2.2.1 ++
    (if u.2.2.2 > 0 then fmtFrac u.2.2.2.toNat else [])

/-- Source `Value.MarshalText`: the bytes of `String`. -/
def MarshalText (t : Int) : List Nat := String t

/-- Modelled from the spec: an ASCII decimal digit byte, as accepted by the
Go standard library time parser that the source delegates to. -/
def digitByte (c : Nat) : Bool := (48 ≤ c) && (c ≤ 57)

/-- Modelled from the spec: the value parsed from the optional fractional
digits of the layout `15:04:05.999999999` — between 1 and 9 digits after the
dot, scaled to nanoseconds. -/
def fracValue (ds : List Nat) : Option Nat :=
  if (1 ≤ ds.length) && (ds.length ≤ 9) && ds.all digitByte then
    some ((ds.foldl (fun a c => 10 * a + (c - 48)) 0) * 10 ^ (9 - ds.length))
  else none

/-- Modelled from the spec: `time.ParseInLocation` with the fixed layout
`15:04:05.999999999` (the Go standard library parser is outside this
repository).  Per the documented grammar: `hh` is two digits in [00, 23],
`mm` and `ss` two digits in [00, 59], separated by colons, optionally
followed by a dot and 1 to 9 fractional digits. -/
def parseTimeString (text : List Nat) : Option (Int × Int × Int × Int) :=
  match text with
  | b1 :: b2 :: 58 :: b3 :: b4 :: 58 :: b5 :: b6 :: rest =>
    if digitByte b1 && digitByte b2 && digitByte b3 && digitByte b4 &&
        digitByte b5 && digitByte b6 then
      let hh : Nat := 10 * (b1 - 48) + (b2 - 48)
      let mm : Nat := 10 * (b3 - 48) + (b4 - 48)
      let ss : Nat := 10 * (b5 - 48) + (b6 - 48)
      if (hh ≤ 23) && (mm ≤ 59) && (ss ≤ 59) then
        match rest with
        | [] => some ((hh : Int), (mm : Int), (ss : Int), 0)
        | 46 :: ds =>
          match fracValue ds with
          | some ns => some ((hh : Int), (mm : Int), (ss : Int), (ns : Int))
          | none => none
        | _ => none
      else none
    else none
  | _ => none

/-- Source `Value.UnmarshalText`: length check (8 to 18 bytes), parse with the
fixed layout (spec-modelled), then `FromUnits` with the error discarded (the
source comment notes the units are already validated by the parser; on the
unreachable error path the stored value is `Zero`). -/
def UnmarshalText (text : List Nat) : Except TodErr Int :=
  if text.length < 8 || text.length > 18 then .error .invalidTextDataLen
  else
    match parseTimeString text with
    | none => .error .invalidTimeFormat
    | some (hh, mm, ss, ns) =>
      match FromUnits hh mm ss ns with
      | .ok v => .ok v
      | .error _ => .ok Zero

/-- Padded most-significant-first digit list of `v mod 10^i` (proof helper for
the `fmtFrac` loop). -/
def digitsPad : Nat → Nat → List Nat
  | 0, _ => []
  | i + 1, v => digitsPad i (v / 10) ++ [48 + v % 10]

/-- Length of the padded digit list. -/
theorem digitsPad_length (i : Nat) : ∀ v, (digitsPad i v).length = i := by
  induction i with
  | zero => intro v; rfl
  | succ i ih =>
    intro v
    simp only [digitsPad, List.length_append, List.length_cons, List.length_nil, ih]

/-- Every entry of the padded digit list is a digit byte. -/
theorem digitsPad_all (i : Nat) : ∀ v, (digitsPad i v).all digitByte = true := by
  induction i with
  | zero => intro v; rfl
  | succ i ih =>
    intro v
    simp only [digitsPad, List.all_append, ih, Bool.true_and, List.all_cons, List.all_nil,
      Bool.and_true]
    simp only [digitByte, Bool.and_eq_true, decide_eq_true_eq]
    omega

/-- Decomposition of a residue modulo `10^(i+1)`. -/
theorem mod_pow_succ_ten (v : Nat) (i : Nat) :
    v % 10 ^ (i + 1) = 10 * (v / 10 % 10 ^ i) + v % 10 := by
  rw [pow_succ, Nat.mul_comm (10 ^ i) 10, Nat.mod_mul]
  omega

/-- Value of the padded digit list. -/
theorem digitsPad_val (i : Nat) : ∀ v,
    (digitsPad i v).foldl (fun a c => 10 * a + (c - 48)) 0 = v % 10 ^ i := by
  induction i with
  | zero => intro v; simp [digitsPad, Nat.mod_one]
  | succ i ih =>
    intro v
    rw [digitsPad, List.foldl_append, ih]
    simp only [List.foldl_cons, List.foldl_nil]
    rw [mod_pow_succ_ten]
    omega

/-- Once the print flag is set, the loop emits every remaining digit. -/
theorem fmtFracLoop_true (i : Nat) : ∀ v acc,
    fmtFracLoop i v true acc = (true, digitsPad i v ++ acc) := by
  induction i with
  | zero => intro v acc; rfl
  | succ i ih =>
    intro v acc
    rw [fmtFracLoop]
    simp only [Bool.true_or, if_pos]
    rw [ih]
    simp only [digitsPad, List.append_assoc, List.cons_append, List.nil_append]

/-- On a non-zero residue the loop produces a non-empty digit list whose value,
rescaled by the number of trimmed trailing zeros, recovers the residue. -/
theorem fmtFracLoop_false (i : Nat) : ∀ v, 0 < v % 10 ^ i →
    ∃ ds, fmtFracLoop i v false [] = (true, ds) ∧ ds.all digitByte = true ∧
      1 ≤ ds.length ∧ ds.length ≤ i ∧
      (ds.foldl (fun a c => 10 * a + (c - 48)) 0) * 10 ^ (i - ds.length) = v % 10 ^ i := by
  induction i with
  | zero => intro v hv; simp [pow_zero, Nat.mod_one] at hv
  | succ i ih =>
    intro v hv
    by_cases hd : v % 10 = 0
    · have step : fmtFracLoop (i + 1) v false [] = fmtFracLoop i (v / 10) false [] := by
        rw [fmtFracLoop]
        simp [hd]
      have hv2 : 0 < v / 10 % 10 ^ i := by
        rw [mod_pow_succ_ten] at hv
        omega
      obtain ⟨ds, e1, e2, e3, e4, e5⟩ := ih (v / 10) hv2
      refine ⟨ds, step.trans e1, e2, e3, by omega, ?_⟩
      rw [mod_pow_succ_ten, hd]
      have hexp : 10 ^ (i + 1 - ds.length) = 10 * 10 ^ (i - ds.length) := by
        rw [← pow_succ']
        congr 1
        omega
      rw [hexp, Nat.mul_left_comm, e5]
      omega
    · have step : fmtFracLoop (i + 1) v false [] =
          fmtFracLoop i (v / 10) true [48 + v % 10] := by
        rw [fmtFracLoop]
        simp [hd]
        rw [show (v % 10 != 0) = true from by simp [hd]]
      rw [step, fmtFracLoop_true]
      refine ⟨digitsPad i (v / 10) ++ [48 + v % 10], rfl, ?_, ?_, ?_, ?_⟩
      · simp only [List.all_append, digitsPad_all, Bool.true_and, List.all_cons, List.all_nil,
          Bool.and_true]
        simp only [digitByte, Bool.and_eq_true, decide_eq_true_eq]
        omega
      · simp [digitsPad_length]
      · simp [digitsPad_length]
      · rw [List.foldl_append, digitsPad_val]
        simp only [List.foldl_cons, List.foldl_nil]
        have hlen : (digitsPad i (v / 10) ++ [48 + v % 10]).length = i + 1 := by
          simp [digitsPad_length]
        rw [hlen, Nat.sub_self, pow_zero, Nat.mul_one, mod_pow_succ_ten]
        omega

/-- Specification of `fmtFrac` on a positive sub-second fraction: a dot
followed by 1 to 9 digit bytes recovering the value after rescaling. -/
theorem fmtFrac_spec (v : Nat) (h0 : 0 < v) (h9 : v < 1000000000) :
    ∃ ds, fmtFrac v = 46 :: ds ∧ ds.all digitByte = true ∧ 1 ≤ ds.length ∧ ds.length ≤ 9 ∧
      (ds.foldl (fun a c => 10 * a + (c - 48)) 0) * 10 ^ (9 - ds.length) = v := by
  have hmod : v % 10 ^ 9 = v :=
    Nat.mod_eq_of_lt (by rw [show (10 : Nat) ^ 9 = 1000000000 by norm_num]; exact h9)
  obtain ⟨ds, e1, e2, e3, e4, e5⟩ := fmtFracLoop_false 9 v (by rw [hmod]; exact h0)
  refine ⟨ds, ?_, e2, e3, e4, by rw [e5, hmod]⟩
  rw [fmtFrac, e1]
  rfl

/-- Truncated division agrees with Euclidean division on non-negative
dividends. -/
theorem tdiv_nonneg (a b : Int) (h : 0 ≤ a) : tdiv a b = a / b := by
  simp [tdiv, h]

/-- Characterization of `ToUnits` on a non-negative nanosecond count. -/
theorem ToUnits_eq (t : Int) (h0 : 0 ≤ t) :
    ToUnits t = (t / 3600000000000, t % 3600000000000 / 60000000000,
      t % 3600000000000 % 60000000000 / 1000000000, t % 1000000000) := by
  simp only [ToUnits, nsecsPerHour, nsecsPerMinute, nsecsPerSecond]
  norm_num
  rw [tdiv_nonneg t 3600000000000 h0]
  rw [tdiv_nonneg (t - t / 3600000000000 * 3600000000000) 60000000000 (by omega)]
  rw [tdiv_nonneg (t - t / 3600000000000 * 3600000000000 -
      (t - t / 3600000000000 * 3600000000000) / 60000000000 * 60000000000) 1000000000 (by omega)]
  simp only [Prod.mk.injEq]
  refine ⟨trivial, by omega, by omega, by omega⟩

/-- The parser recovers the rendered units exactly. -/
theorem parse_render (h m s ns : Int)
    (hh : 0 ≤ h) (hh2 : h ≤ 23) (hm : 0 ≤ m) (hm2 : m ≤ 59)
    (hs : 0 ≤ s) (hs2 : s ≤ 59) (hns : 0 ≤ ns) (hns2 : ns < 1000000000) :
    parseTimeString (twoDigits h ++ [58] ++ twoDigits m ++ [58] ++ twoDigits s ++
        (if ns > 0 then fmtFrac ns.toNat else [])) = some (h, m, s, ns) := by
  by_cases hpos : ns > 0
  · obtain ⟨ds, f1, f2, f3, f4, f5⟩ := fmtFrac_spec ns.toNat (by omega) (by omega)
    rw [if_pos hpos, f1]
    simp only [twoDigits, List.cons_append, List.nil_append]
    simp only [parseTimeString]
    rw [if_pos (by simp only [digitByte, Bool.and_eq_true, decide_eq_true_eq]; omega)]
    rw [if_pos (by simp only [Bool.and_eq_true, decide_eq_true_eq]; omega)]
    have hfrac : fracValue ds = some ns.toNat := by
      rw [fracValue, if_pos (by
        simp only [f2, Bool.and_true, Bool.and_eq_true, decide_eq_true_eq]
        exact ⟨f3, f4⟩), f5]
    rw [hfrac]
    simp only [Option.some.injEq, Prod.mk.injEq]
    refine ⟨by omega, by omega, by omega, by omega⟩
  · rw [if_neg hpos]
    simp only [twoDigits, List.cons_append, List.nil_append, List.append_nil]
    simp only [parseTimeString]
    rw [if_pos (by simp only [digitByte, Bool.and_eq_true, decide_eq_true_eq]; omega)]
    rw [if_pos (by simp only [Bool.and_eq_true, decide_eq_true_eq]; omega)]
    simp only [Option.some.injEq, Prod.mk.injEq]
    refine ⟨by omega, by omega, by omega, by omega⟩

/-- Round-trip of the text codec on every valid value. -/
theorem UnmarshalText_String (t : Int) (h0 : 0 ≤ t) (h1 : t < 86400000000000) :
    UnmarshalText (String t) = .ok t := by
  have hS : String t = twoDigits (t / 3600000000000) ++ [58] ++
      twoDigits (t % 3600000000000 / 60000000000) ++ [58] ++
      twoDigits (t % 3600000000000 % 60000000000 / 1000000000) ++
      (if t % 1000000000 > 0 then fmtFrac (t % 1000000000).toNat else []) := by
    rw [String, ToUnits_eq t h0]
  have hparse := parse_render (t / 3600000000000) (t % 3600000000000 / 60000000000)
      (t % 3600000000000 % 60000000000 / 1000000000) (t % 1000000000)
      (by omega) (by omega) (by omega) (by omega) (by omega) (by omega) (by omega) (by omega)
  have hvalid : IsValidUnits (t / 3600000000000) (t % 3600000000000 / 60000000000)
      (t % 3600000000000 % 60000000000 / 1000000000) (t % 1000000000) = true := by
    simp only [IsValidUnits, Bool.and_eq_true, decide_eq_true_eq]
    omega
  have hlen : 8 ≤ (String t).length ∧ (String t).length ≤ 18 := by
    rw [hS]
    by_cases hpos : t % 1000000000 > 0
    · obtain ⟨ds, f1, f2, f3, f4, f5⟩ := fmtFrac_spec (t % 1000000000).toNat
        (by omega) (by omega)
      rw [if_pos hpos, f1]
      simp only [twoDigits, List.cons_append, List.nil_append, List.length_append,
        List.length_cons, List.length_nil]
      omega
    · rw [if_neg hpos]
      simp only [twoDigits, List.cons_append, List.nil_append, List.append_nil,
        List.length_cons, List.length_nil]
      omega
  rw [UnmarshalText, if_neg (by
    simp only [Bool.or_eq_true, decide_eq_true_eq]
    omega)]
  rw [hS, hparse]
  simp only []
  rw [FromUnits, if_pos hvalid]
  simp only [Except.ok.injEq, nsecsPerHour, nsecsPerMinute, nsecsPerSecond]
  omega

/-- C5: for every valid TimeOfDay value the canonical rendering decodes back
to exactly that value; when the nanosecond component is zero the rendering is
the bare 8-byte `hh:mm:ss` (no fractional part, no trailing dot); the string
`12:34:56.1` decodes to 45296100000000 ns and that value re-encodes to
`12:34:56.1` (trailing zeros trimmed). -/
theorem claim5_text_roundtrip :
    (∀ t : Int, 0 ≤ t → t < 86400000000000 → UnmarshalText (String t) = .ok t) ∧
    (∀ t : Int, 0 ≤ t → t % 1000000000 = 0 → (String t).length = 8) ∧
    UnmarshalText [49, 50, 58, 51, 52, 58, 53, 54, 46, 49] = .ok 45296100000000 ∧
    String 45296100000000 = [49, 50, 58, 51, 52, 58, 53, 54, 46, 49] := by
  refine ⟨fun t h0 h1 => UnmarshalText_String t h0 h1, ?_, by decide, by decide⟩
  intro t h0 hz
  rw [String, ToUnits_eq t h0]
  simp only []
  rw [if_neg (by omega)]
  simp only [twoDigits, List.cons_append, List.nil_append, List.append_nil,
    List.length_cons, List.length_nil]

/-- Witness for C5: the round-trip clause applied at 12:34:56.1. -/
theorem claim5_witness : UnmarshalText (String 45296100000000) = .ok 45296100000000 :=
  claim5_text_roundtrip.1 45296100000000 (by decide) (by decide)

/-- Modelled from the spec: `encoding/json` decoding of a single value into a
Go string (the standard library decoder is outside this repository).  It
succeeds exactly on a JSON string token — an opening quote byte (34), content
without unescaped quotes or backslashes (92), and a closing quote — and
yields the content; any other token (number, array, object, boolean) fails. -/
def jsonDecodeString (p : List Nat) : Option (List Nat) :=
  match p with
  | 34 :: rest =>
    if (1 ≤ rest.length) && (rest.getLast? == some 34) &&
        rest.dropLast.all (fun c => (c != 34) && (c != 92)) then
      some rest.dropLast
    else none
  | _ => none

/-- Source use of `strings.Trim(s, quote)`: removes all leading and trailing
quote bytes from the decoded string. -/
def trimQuotes (s : List Nat) : List Nat :=
  ((s.dropWhile (fun c => c == 34)).reverse.dropWhile (fun c => c == 34)).reverse

/-- Source `Value.UnmarshalJSON`: the JSON token `null` (bytes 110 117 108
108) stores `Zero`; otherwise the payload is decoded as a JSON string
(spec-modelled) — failing with the wrapped `ErrInvalidTextData` — and the
quote-trimmed content is passed to `UnmarshalText`. -/
def UnmarshalJSON (p : List Nat) : Except TodErr Int :=
  if p = [110, 117, 108, 108] then .ok Zero
  else
    match jsonDecodeString p with
    | none => .error .invalidTextData
    | some s => UnmarshalText (trimQuotes s)

/-- C9: JSON `null` decodes to the zero value (midnight, no error); any
non-string, non-null JSON token — e.g. the number 42, an array, or an
object — fails with `ErrInvalidTextData`; a JSON string is decoded by
applying the text-decoding rules to its contents. -/
theorem claim9_json_decoding :
    UnmarshalJSON [110, 117, 108, 108] = .ok Zero ∧
    UnmarshalJSON [52, 50] = .error .invalidTextData ∧
    UnmarshalJSON [91, 93] = .error .invalidTextData ∧
    UnmarshalJSON [123, 125] = .error .invalidTextData ∧
    (∀ p : List Nat, p ≠ [110, 117, 108, 108] → jsonDecodeString p = none →
        UnmarshalJSON p = .error .invalidTextData) ∧
    (∀ p s : List Nat, p ≠ [110, 117, 108, 108] → jsonDecodeString p = some s →
        UnmarshalJSON p = UnmarshalText (trimQuotes s)) := by
  refine ⟨by decide, by decide, by decide, by decide, ?_, ?_⟩
  · intro p hne hnone
    rw [UnmarshalJSON, if_neg hne, hnone]
  · intro p s hne hsome
    rw [UnmarshalJSON, if_neg hne, hsome]

/-- Witness for C9: the string-delegation clause applied to the JSON string
token for 12:34:56. -/
theorem claim9_witness :
    UnmarshalJSON [34, 49, 50, 58, 51, 52, 58, 53, 54, 34] =
      UnmarshalText (trimQuotes [49, 50, 58, 51, 52, 58, 53, 54]) :=
  claim9_json_decoding.2.2.2.2.2 [34, 49, 50, 58, 51, 52, 58, 53, 54, 34]
    [49, 50, 58, 51, 52, 58, 53, 54] (by decide) (by decide)

end timeofday

end gotypes
